import Mathlib

/-!
Shallow embedding of the resilience core of the repository: the
`CircuitBreaker` state machine (`app/circuit_breaker.py`), the decorator
binding `circuit_breaker`, and the exponential-backoff retry loop at the
remote-completion call site (`app/agent.py`, `_generate_response`).

Python exceptions are modelled by a class tag plus a message; `isinstance`
against the configured `expected_exception` becomes `isInstanceOf`.
Wall-clock instants (`time.time()`) are passed in explicitly as an integer
`now` argument; one call uses a single instant.  A wrapped operation is
modelled by the outcome it would produce if invoked (`OpResult`), and a
`call` returns the outcome visible to the caller together with the
post-state of the breaker.
-/

/-- The three breaker states of `CircuitState` (`circuit_breaker.py:15`). -/
inductive CircuitState
  | closed
  | opened
  | halfOpen
deriving DecidableEq

/-- Python exception classes that occur around the resilience core:
`Exception` itself (the default `expected_exception`, also the class of the
breaker-open raise), `litellm.exceptions.RateLimitError` (the class the retry
loop catches), and a further subclass standing for any other concrete
exception type. -/
inductive ExcClass
  | exceptionBase
  | rateLimitError
  | valueError
deriving DecidableEq

/-- `isInstanceOf c target` models Python `isinstance(e, target)` for an
exception of class `c`: every class here subclasses `Exception`, and the
proper subclasses are unrelated to each other. -/
def isInstanceOf (c target : ExcClass) : Bool :=
  target == ExcClass.exceptionBase || c == target

/-- A Python exception value: its class and its message. -/
structure PyExc where
  cls : ExcClass
  msg : String
deriving DecidableEq

/-- The breaker object: configuration fields and the mutable state
(`failure_count`, `last_failure_time`, `state`) of `CircuitBreaker.__init__`
(`circuit_breaker.py:32`). -/
structure CircuitBreaker where
  failure_threshold : Nat
  timeout : Int
  expected_exception : ExcClass
  name : String
  failure_count : Nat
  last_failure_time : Option Int
  state : CircuitState
deriving DecidableEq

/-- A freshly constructed breaker: `failure_count = 0`,
`last_failure_time = None`, `state = CLOSED` (`circuit_breaker.py:53`). -/
def CircuitBreaker.mkInit (ft : Nat) (tmo : Int) (exp : ExcClass)
    (nm : String) : CircuitBreaker :=
  ⟨ft, tmo, exp, nm, 0, none, CircuitState.closed⟩

/-- What the wrapped operation would do if invoked now: return a value or
raise an exception. -/
inductive OpResult (α : Type)
  | ok (a : α)
  | err (e : PyExc)
deriving DecidableEq

/-- The outcome a caller of `CircuitBreaker.call` observes: a returned value,
a propagated exception, or the `TypeError` crash that Python would produce by
computing `time.time() - None` when an OPEN breaker has no recorded failure
time (`circuit_breaker.py:79`). -/
inductive CallOutcome (α : Type)
  | ok (a : α)
  | raised (e : PyExc)
  | noneTypeCrash
deriving DecidableEq

/-- The exception raised when the breaker short-circuits: a plain `Exception`
with a formatted message (`circuit_breaker.py:83`). -/
def breakerOpenExc (nm : String) : PyExc :=
  ⟨ExcClass.exceptionBase,
   "Circuit breaker " ++ nm ++ " is OPEN. Service unavailable. Try again later."⟩

/-- `CircuitBreaker._handle_failure` (`circuit_breaker.py:107`): increment the
counter, stamp the failure time, and open the circuit when the counter has
reached the threshold. -/
def handleFailure (b : CircuitBreaker) (now : Int) : CircuitBreaker :=
  let b1 := { b with failure_count := b.failure_count + 1,
                     last_failure_time := some now }
  if b1.failure_threshold ≤ b1.failure_count then
    { b1 with state := CircuitState.opened }
  else b1

/-- `CircuitBreaker._reset` (`circuit_breaker.py:124`). -/
def resetBreaker (b : CircuitBreaker) : CircuitBreaker :=
  { b with failure_count := 0, last_failure_time := none,
           state := CircuitState.closed }

/-- The `try` body of `CircuitBreaker.call` (`circuit_breaker.py:88`): invoke
the operation; on success reset if HALF_OPEN; on an exception matching
`expected_exception` run `_handle_failure` and re-raise; any other exception
propagates past the handler with the breaker untouched. -/
def runBody {α : Type} (b : CircuitBreaker) (now : Int) (op : OpResult α) :
    CallOutcome α × CircuitBreaker :=
  match op with
  | OpResult.ok a =>
    if b.state = CircuitState.halfOpen then (CallOutcome.ok a, resetBreaker b)
    else (CallOutcome.ok a, b)
  | OpResult.err e =>
    if isInstanceOf e.cls b.expected_exception then
      (CallOutcome.raised e, handleFailure b now)
    else (CallOutcome.raised e, b)

/-- `CircuitBreaker.call` (`circuit_breaker.py:63`): when OPEN, either crash
on a missing timestamp, admit the call as a HALF_OPEN probe once the timeout
has elapsed, or raise the breaker-open exception; otherwise run the body. -/
def CircuitBreaker.call {α : Type} (b : CircuitBreaker) (now : Int)
    (op : OpResult α) : CallOutcome α × CircuitBreaker :=
  if b.state = CircuitState.opened then
    match b.last_failure_time with
    | none => (CallOutcome.noneTypeCrash, b)
    | some t =>
      if b.timeout ≤ now - t then
        runBody { b with state := CircuitState.halfOpen } now op
      else (CallOutcome.raised (breakerOpenExc b.name), b)
  else runBody b now op

/-- The string `state.value` of a `CircuitState` (`circuit_breaker.py:17`). -/
def stateValue : CircuitState → String
  | CircuitState.closed => "closed"
  | CircuitState.opened => "open"
  | CircuitState.halfOpen => "half_open"

/-- The dictionary returned by `CircuitBreaker.get_state`
(`circuit_breaker.py:130`). -/
structure StateSnapshot where
  name : String
  state : String
  failure_count : Nat
  threshold : Nat
  last_failure : Option Int
deriving DecidableEq

/-- `CircuitBreaker.get_state` (`circuit_breaker.py:130`). -/
def CircuitBreaker.get_state (b : CircuitBreaker) : StateSnapshot :=
  ⟨b.name, stateValue b.state, b.failure_count, b.failure_threshold,
   b.last_failure_time⟩

/-- The object produced by applying the decorator returned by
`circuit_breaker(...)` to a function (`circuit_breaker.py:156`): a wrapper
closing over the single breaker created at decoration time, with that breaker
attached as the `circuit_breaker` attribute (`circuit_breaker.py:170`). -/
structure BoundOperation where
  circuit_breaker : CircuitBreaker
deriving DecidableEq

/-- The decorator factory `circuit_breaker` (`circuit_breaker.py:141`)
applied to a function named `funcName`: one breaker is constructed at
definition time, named `name or func.__name__` (so an absent, `None`, or
empty name falls back to the function name). -/
def circuit_breaker (ft : Nat) (tmo : Int) (exp : ExcClass)
    (nm : Option String) (funcName : String) : BoundOperation :=
  let breakerName := match nm with
    | none => funcName
    | some s => if s = "" then funcName else s
  ⟨CircuitBreaker.mkInit ft tmo exp breakerName⟩

/-- One invocation of the wrapper (`circuit_breaker.py:166`): it delegates to
`breaker.call` on the breaker captured at decoration time, whose updated
state replaces the old one inside the binding. -/
def BoundOperation.invoke {α : Type} (w : BoundOperation) (now : Int)
    (op : OpResult α) : CallOutcome α × BoundOperation :=
  let r := CircuitBreaker.call w.circuit_breaker now op
  (r.1, ⟨r.2⟩)

/-- A sequence of invocations of the bound operation, each at a given time
with a given operation outcome, threading the shared breaker. -/
def BoundOperation.invokeAll (w : BoundOperation)
    (calls : List (Int × OpResult Unit)) : BoundOperation :=
  calls.foldl (fun acc c => (acc.invoke c.1 c.2).2) w

/-- The outcome of the retry loop in `_generate_response` (`app/agent.py`):
a response, a propagated exception, or the `NameError` Python would raise
after a zero-iteration loop leaves `response` unbound. -/
inductive RetryOutcome (α : Type)
  | ok (a : α)
  | raised (e : PyExc)
  | unboundResponse
deriving DecidableEq

/-- The body of `for attempt in range(max_retries)` in `_generate_response`
(`app/agent.py:194`), from attempt `i` with `fuel` iterations left
(`fuel = max_retries - i`).  A success breaks out; a `RateLimitError` sleeps
`retry_delay * 2 ** attempt` and retries unless this was the last attempt, in
which case it is re-raised; any other exception propagates at once.  The
returned list records the sleeps performed, in order. -/
def retryGo {α : Type} (maxRetries retryDelay : Nat)
    (attempts : Nat → OpResult α) (i : Nat) : Nat → List Nat × RetryOutcome α
  | 0 => ([], RetryOutcome.unboundResponse)
  | fuel + 1 =>
    match attempts i with
    | OpResult.ok a => ([], RetryOutcome.ok a)
    | OpResult.err e =>
      if isInstanceOf e.cls ExcClass.rateLimitError then
        if i < maxRetries - 1 then
          let rest := retryGo maxRetries retryDelay attempts (i + 1) fuel
          (retryDelay * 2 ^ i :: rest.1, rest.2)
        else ([], RetryOutcome.raised e)
      else ([], RetryOutcome.raised e)

/-- The whole retry loop of `_generate_response`, started at attempt 0; the
source fixes `max_retries = 3` and `retry_delay = 2` (`app/agent.py:192`). -/
def retryCompletion {α : Type} (maxRetries retryDelay : Nat)
    (attempts : Nat → OpResult α) : List Nat × RetryOutcome α :=
  retryGo maxRetries retryDelay attempts 0 maxRetries

/-- The breaker states reachable in a run: a freshly constructed breaker, or
the post-state of any `call` on a reachable breaker.  The spec's data model
allows mutation exclusively through `execute`. -/
inductive Reachable : CircuitBreaker → Prop
  | base (ft : Nat) (tmo : Int) (exp : ExcClass) (nm : String) :
      Reachable (CircuitBreaker.mkInit ft tmo exp nm)
  | step (b : CircuitBreaker) (now : Int) (op : OpResult Unit)
      (h : Reachable b) : Reachable (CircuitBreaker.call b now op).2

/-- A run consisting only of classified failures at the given instants. -/
def failTimes (b : CircuitBreaker) (e : PyExc) : List Int → CircuitBreaker
  | [] => b
  | t :: ts => failTimes (CircuitBreaker.call b t (OpResult.err e : OpResult Unit)).2 e ts

/-- A rate-limit exception, as raised by the completion dependency. -/
def rlExc : PyExc := ⟨ExcClass.rateLimitError, "rate limit hit"⟩

/-- A generic dependency failure of class `Exception`. -/
def plainExc : PyExc := ⟨ExcClass.exceptionBase, "dependency failure"⟩

/-- The run invariant of the breaker state machine: away from CLOSED the
counter has reached the threshold and a failure instant is recorded. -/
def BreakerInv (b : CircuitBreaker) : Prop :=
  b.state ≠ CircuitState.closed →
    b.failure_threshold ≤ b.failure_count ∧ b.last_failure_time ≠ none

/-- A threshold-1 breaker driven OPEN by one classified failure at time 0. -/
def openedRun : CircuitBreaker :=
  (CircuitBreaker.call
    (CircuitBreaker.mkInit 1 5 ExcClass.rateLimitError "probe_op") 0
    (OpResult.err rlExc : OpResult Unit)).2

/-- `openedRun` called again at time 100 (past the timeout) with an
unclassified failure: the probe admission moves the breaker to HALF_OPEN and
the unclassified failure leaves it there. -/
def halfOpenRun : CircuitBreaker :=
  (CircuitBreaker.call openedRun 100 (OpResult.err plainExc : OpResult Unit)).2

example : (failTimes (CircuitBreaker.mkInit 3 30 ExcClass.exceptionBase "nm") plainExc [0, 1]).state = CircuitState.closed := by decide
example : retryCompletion 1 2 (fun _ => (OpResult.err rlExc : OpResult Unit)) = ([], RetryOutcome.raised rlExc) := by decide

theorem breakerInv_mkInit (ft : Nat) (tmo : Int) (exp : ExcClass)
    (nm : String) : BreakerInv (CircuitBreaker.mkInit ft tmo exp nm) := by
  intro h
  exact absurd rfl h

theorem breakerInv_step (b : CircuitBreaker) (now : Int) (op : OpResult Unit)
    (h : BreakerInv b) : BreakerInv (CircuitBreaker.call b now op).2 := by
  unfold BreakerInv at *
  rcases b with ⟨ft, tmo, exp, nm, fc, lft, st⟩
  rcases op with a | e <;> rcases st <;> rcases lft with _ | t <;>
    simp_all [CircuitBreaker.call, runBody, handleFailure, resetBreaker] <;>
    split_ifs <;> simp_all <;> omega

theorem reachable_inv (b : CircuitBreaker) (hr : Reachable b) :
    BreakerInv b := by
  induction hr with
  | base ft tmo exp nm => exact breakerInv_mkInit ft tmo exp nm
  | step b now op h ih => exact breakerInv_step b now op ih

theorem openedRun_reachable : Reachable openedRun :=
  Reachable.step _ 0 _ (Reachable.base 1 5 ExcClass.rateLimitError "probe_op")

theorem halfOpenRun_reachable : Reachable halfOpenRun :=
  Reachable.step _ 100 _ openedRun_reachable

example : openedRun.last_failure_time = some 0 := by decide
example : halfOpenRun.failure_count = 1 := by decide

theorem failTimes_opens (e : PyExc) :
    ∀ (ts : List Int) (b : CircuitBreaker),
      b.state = CircuitState.closed →
      isInstanceOf e.cls b.expected_exception = true →
      b.failure_count + ts.length = b.failure_threshold →
      ts ≠ [] →
      (failTimes b e ts).state = CircuitState.opened := by
  intro ts
  induction ts with
  | nil => intro b _ _ _ hne; exact absurd rfl hne
  | cons t ts ih =>
    intro b hst hcls hlen _
    have hstep : (CircuitBreaker.call b t (OpResult.err e : OpResult Unit)).2
        = handleFailure b t := by
      simp [CircuitBreaker.call, runBody, hst, hcls]
    rw [failTimes, hstep]
    by_cases hth : b.failure_threshold ≤ b.failure_count + 1
    · have hts : ts = [] := by
        rcases ts with _ | _
        · rfl
        · exfalso; simp [List.length] at hlen; omega
      subst hts
      rw [failTimes]
      simp [handleFailure, hth]
    · have hne2 : ts ≠ [] := by
        intro hcon; subst hcon; simp [List.length] at hlen; omega
      have hfields : (handleFailure b t).state = CircuitState.closed
          ∧ (handleFailure b t).expected_exception = b.expected_exception
          ∧ (handleFailure b t).failure_count = b.failure_count + 1
          ∧ (handleFailure b t).failure_threshold = b.failure_threshold := by
        simp [handleFailure, hth, hst]
      exact ih (handleFailure b t) hfields.1 (by rw [hfields.2.1]; exact hcls)
        (by rw [hfields.2.2.1, hfields.2.2.2]; simp [List.length] at hlen ⊢; omega)
        hne2

/-- C1: starting from a fresh breaker with positive `failure_threshold`,
exactly `failure_threshold` consecutive calls whose operation fails with the
configured expected classification (at arbitrary instants, with no
intervening success) leave the breaker OPEN. -/
theorem c1_threshold_failures_open (ft : Nat) (tmo : Int) (exp : ExcClass)
    (nm : String) (e : PyExc) (ts : List Int) (hft : 0 < ft)
    (hlen : ts.length = ft) (hcls : isInstanceOf e.cls exp = true) :
    (failTimes (CircuitBreaker.mkInit ft tmo exp nm) e ts).state
      = CircuitState.opened := by
  apply failTimes_opens e ts (CircuitBreaker.mkInit ft tmo exp nm) rfl hcls
  · simpa [CircuitBreaker.mkInit] using hlen
  · intro hcon
    rw [hcon] at hlen
    simp at hlen
    omega

/-- C1 witness: a threshold-2 breaker opens after two classified failures. -/
theorem c1_witness :
    (failTimes (CircuitBreaker.mkInit 2 60 ExcClass.exceptionBase "sf") plainExc
      [3, 7]).state = CircuitState.opened :=
  c1_threshold_failures_open 2 60 ExcClass.exceptionBase "sf" plainExc [3, 7]
    (by decide) (by decide) (by decide)

/-- C2 (amended): while OPEN with elapsed time strictly below the timeout,
`call` returns the breaker-open exception and leaves the breaker untouched,
for every operation (so the operation is never invoked); the raised exception
is the breaker's own, but its class is the generic `Exception` class, not a
dedicated `BreakerOpenError` type. -/
theorem c2_open_short_circuits (b : CircuitBreaker) (t now : Int)
    (op : OpResult Unit) (hst : b.state = CircuitState.opened)
    (hlf : b.last_failure_time = some t) (helapsed : now - t < b.timeout) :
    CircuitBreaker.call b now op
      = (CallOutcome.raised (breakerOpenExc b.name), b)
    ∧ (breakerOpenExc b.name).cls = ExcClass.exceptionBase := by
  refine ⟨?_, rfl⟩
  simp [CircuitBreaker.call, hst, hlf, not_le.mpr helapsed]

/-- C2 witness: an OPEN breaker within the timeout window rejects even a call
whose operation would have succeeded, returning the breaker-open raise with
the state unchanged. -/
theorem c2_witness :
    CircuitBreaker.call openedRun 3 (OpResult.ok () : OpResult Unit)
      = (CallOutcome.raised (breakerOpenExc openedRun.name), openedRun)
    ∧ (breakerOpenExc openedRun.name).cls = ExcClass.exceptionBase :=
  c2_open_short_circuits openedRun 0 3 (OpResult.ok ()) (by decide) (by decide)
    (by decide)

/-- C2 counterexample: the breaker-open raise is not a failure kind distinct
from failures originating in the wrapped operation — the code raises a plain
`Exception` (`circuit_breaker.py:83`), and a wrapped operation propagating a
failure of class `Exception` through `call` yields the very same class. -/
theorem c2_counterexample :
    (CircuitBreaker.call
        (CircuitBreaker.mkInit 3 30 ExcClass.exceptionBase "sf_connect") 0
        (OpResult.err plainExc : OpResult Unit)).1 = CallOutcome.raised plainExc
    ∧ plainExc.cls = (breakerOpenExc "sf_connect").cls := by
  exact ⟨rfl, rfl⟩

/-- C3: once OPEN with elapsed time at least the timeout, the next call is
admitted as a HALF_OPEN probe (it runs the body on the breaker moved to
HALF_OPEN, for any operation); if the operation succeeds the call returns its
value and the post-state is CLOSED with `failure_count = 0` and
`last_failure_time = None`. -/
theorem c3_probe_success_closes (b : CircuitBreaker) (t now : Int) (a : Unit)
    (op : OpResult Unit) (hst : b.state = CircuitState.opened)
    (hlf : b.last_failure_time = some t) (ht : b.timeout ≤ now - t) :
    CircuitBreaker.call b now op
      = runBody { b with state := CircuitState.halfOpen } now op
    ∧ (CircuitBreaker.call b now (OpResult.ok a)).1 = CallOutcome.ok a
    ∧ (CircuitBreaker.call b now (OpResult.ok a)).2.state = CircuitState.closed
    ∧ (CircuitBreaker.call b now (OpResult.ok a)).2.failure_count = 0
    ∧ (CircuitBreaker.call b now (OpResult.ok a)).2.last_failure_time = none := by
  have hc : ∀ op' : OpResult Unit, CircuitBreaker.call b now op'
      = runBody { b with state := CircuitState.halfOpen } now op' := by
    intro op'
    simp [CircuitBreaker.call, hst, hlf, ht]
  refine ⟨hc op, ?_, ?_, ?_, ?_⟩ <;>
    rw [hc (OpResult.ok a)] <;> simp [runBody, resetBreaker]

/-- C3 witness: the OPEN breaker of `openedRun`, probed after the timeout
with a succeeding operation, returns the value and closes with the counter
and timestamp cleared. -/
theorem c3_witness :
    CircuitBreaker.call openedRun 100 (OpResult.ok () : OpResult Unit)
      = runBody { openedRun with state := CircuitState.halfOpen } 100
          (OpResult.ok ())
    ∧ (CircuitBreaker.call openedRun 100 (OpResult.ok () : OpResult Unit)).1
        = CallOutcome.ok ()
    ∧ (CircuitBreaker.call openedRun 100 (OpResult.ok () : OpResult Unit)).2.state
        = CircuitState.closed
    ∧ (CircuitBreaker.call openedRun 100
        (OpResult.ok () : OpResult Unit)).2.failure_count = 0
    ∧ (CircuitBreaker.call openedRun 100
        (OpResult.ok () : OpResult Unit)).2.last_failure_time = none :=
  c3_probe_success_closes openedRun 0 100 () (OpResult.ok ()) (by decide)
    (by decide) (by decide)

/-- C4: on any reachable breaker in HALF_OPEN, a probe failing with the
configured expected classification sends the breaker straight back to OPEN —
whatever the threshold is, since a reachable HALF_OPEN breaker already
carries a counter at or above it — and stamps `last_failure_time` with the
current instant, restarting the timeout window. -/
theorem c4_half_open_failure_reopens (b : CircuitBreaker) (now : Int)
    (e : PyExc) (hr : Reachable b) (hst : b.state = CircuitState.halfOpen)
    (hcls : isInstanceOf e.cls b.expected_exception = true) :
    (CircuitBreaker.call b now (OpResult.err e : OpResult Unit)).1
        = CallOutcome.raised e
    ∧ (CircuitBreaker.call b now (OpResult.err e : OpResult Unit)).2.state
        = CircuitState.opened
    ∧ (CircuitBreaker.call b now
        (OpResult.err e : OpResult Unit)).2.last_failure_time = some now := by
  have hth : b.failure_threshold ≤ b.failure_count :=
    ((reachable_inv b hr) (by simp [hst])).1
  have hstep : CircuitBreaker.call b now (OpResult.err e : OpResult Unit)
      = (CallOutcome.raised e, handleFailure b now) := by
    simp [CircuitBreaker.call, runBody, hst, hcls]
  rw [hstep]
  have hth1 : b.failure_threshold ≤ b.failure_count + 1 :=
    le_trans hth (Nat.le_succ _)
  simp [handleFailure, hth1]

/-- C4 witness: the reachable HALF_OPEN breaker `halfOpenRun`, probed at time
200 with a classified failure, reopens with the timestamp updated to 200. -/
theorem c4_witness :
    (CircuitBreaker.call halfOpenRun 200 (OpResult.err rlExc : OpResult Unit)).1
        = CallOutcome.raised rlExc
    ∧ (CircuitBreaker.call halfOpenRun 200
        (OpResult.err rlExc : OpResult Unit)).2.state = CircuitState.opened
    ∧ (CircuitBreaker.call halfOpenRun 200
        (OpResult.err rlExc : OpResult Unit)).2.last_failure_time = some 200 :=
  c4_half_open_failure_reopens halfOpenRun 200 rlExc halfOpenRun_reachable
    (by decide) (by decide)

/-- C5 counterexample: with the breaker OPEN and the timeout elapsed, an
unclassified operation failure does change the state — the admission step
already moved the breaker to HALF_OPEN before invoking the operation, and
that transition is not rolled back, so the post-state differs from the
pre-call state OPEN. -/
theorem c5_counterexample :
    openedRun.state = CircuitState.opened
    ∧ openedRun.last_failure_time = some 0
    ∧ openedRun.timeout ≤ 100 - 0
    ∧ isInstanceOf plainExc.cls openedRun.expected_exception = false
    ∧ (CircuitBreaker.call openedRun 100
        (OpResult.err plainExc : OpResult Unit)).2.state
        = CircuitState.halfOpen := by
  decide

/-- C5 (amended): an unclassified operation failure is propagated unchanged
and never touches `failure_count` or `last_failure_time`; the state is also
unchanged when the call started from CLOSED or HALF_OPEN, but a call started
from OPEN with the timeout elapsed leaves the breaker in HALF_OPEN — the
probe admission performed before invoking the operation is kept. -/
theorem c5_unclassified_failure_frame (b : CircuitBreaker) (now t : Int) (e : PyExc)
    (hcls : isInstanceOf e.cls b.expected_exception = false) :
    (b.state = CircuitState.closed →
      CircuitBreaker.call b now (OpResult.err e : OpResult Unit)
        = (CallOutcome.raised e, b))
    ∧ (b.state = CircuitState.halfOpen →
      CircuitBreaker.call b now (OpResult.err e : OpResult Unit)
        = (CallOutcome.raised e, b))
    ∧ (b.state = CircuitState.opened → b.last_failure_time = some t →
      b.timeout ≤ now - t →
      CircuitBreaker.call b now (OpResult.err e : OpResult Unit)
        = (CallOutcome.raised e,
           { b with state := CircuitState.halfOpen })) := by
  refine ⟨?_, ?_, ?_⟩
  · intro hst
    simp [CircuitBreaker.call, runBody, hst, hcls]
  · intro hst
    simp [CircuitBreaker.call, runBody, hst, hcls]
  · intro hst hlf ht
    simp [CircuitBreaker.call, runBody, hst, hlf, ht, hcls]

/-- C5 witness: a CLOSED breaker classifying only rate-limit failures passes
a generic `Exception` failure through completely unchanged. -/
theorem c5_witness :
    CircuitBreaker.call (CircuitBreaker.mkInit 3 30 ExcClass.rateLimitError "q")
        4 (OpResult.err plainExc : OpResult Unit)
      = (CallOutcome.raised plainExc,
         CircuitBreaker.mkInit 3 30 ExcClass.rateLimitError "q") :=
  (c5_unclassified_failure_frame
    (CircuitBreaker.mkInit 3 30 ExcClass.rateLimitError "q") 4 0 plainExc
    (by decide)).1 rfl

/-- C8 counterexample: on the reachable HALF_OPEN breaker `halfOpenRun`,
whose counter sits exactly at the threshold, a classified probe failure
reopens the breaker with a counter different from the threshold —
`_handle_failure` increments it. -/
theorem c8_counterexample :
    halfOpenRun.state = CircuitState.halfOpen
    ∧ halfOpenRun.failure_count = halfOpenRun.failure_threshold
    ∧ isInstanceOf rlExc.cls halfOpenRun.expected_exception = true
    ∧ (CircuitBreaker.call halfOpenRun 200
        (OpResult.err rlExc : OpResult Unit)).2.state = CircuitState.opened
    ∧ (CircuitBreaker.call halfOpenRun 200
        (OpResult.err rlExc : OpResult Unit)).2.failure_count
        ≠ halfOpenRun.failure_threshold := by
  decide

/-- C8 (amended): a classified HALF_OPEN probe failure does not reset the
counter, but it does increment it: after the transition back to OPEN the
counter equals its previous value plus one, strictly above the threshold. -/
theorem c8_probe_failure_increments (b : CircuitBreaker) (now : Int)
    (e : PyExc) (hr : Reachable b) (hst : b.state = CircuitState.halfOpen)
    (hcls : isInstanceOf e.cls b.expected_exception = true) :
    (CircuitBreaker.call b now (OpResult.err e : OpResult Unit)).2.failure_count
        = b.failure_count + 1
    ∧ b.failure_threshold
        < (CircuitBreaker.call b now
            (OpResult.err e : OpResult Unit)).2.failure_count
    ∧ (CircuitBreaker.call b now (OpResult.err e : OpResult Unit)).2.state
        = CircuitState.opened := by
  have hth : b.failure_threshold ≤ b.failure_count :=
    ((reachable_inv b hr) (by simp [hst])).1
  have hstep : CircuitBreaker.call b now (OpResult.err e : OpResult Unit)
      = (CallOutcome.raised e, handleFailure b now) := by
    simp [CircuitBreaker.call, runBody, hst, hcls]
  rw [hstep]
  have hth1 : b.failure_threshold ≤ b.failure_count + 1 :=
    le_trans hth (Nat.le_succ _)
  refine ⟨?_, ?_, ?_⟩ <;> simp [handleFailure, hth1]
  omega

/-- C8 witness: the probe failure on `halfOpenRun` at time 250 bumps the
counter from 1 (the threshold) to 2 and reopens the circuit. -/
theorem c8_witness :
    (CircuitBreaker.call halfOpenRun 250
        (OpResult.err rlExc : OpResult Unit)).2.failure_count
        = halfOpenRun.failure_count + 1
    ∧ halfOpenRun.failure_threshold
        < (CircuitBreaker.call halfOpenRun 250
            (OpResult.err rlExc : OpResult Unit)).2.failure_count
    ∧ (CircuitBreaker.call halfOpenRun 250
        (OpResult.err rlExc : OpResult Unit)).2.state = CircuitState.opened :=
  c8_probe_failure_increments halfOpenRun 250 rlExc halfOpenRun_reachable
    (by decide) (by decide)

theorem runBody_no_crash (b : CircuitBreaker) (now : Int)
    (op : OpResult Unit) : (runBody b now op).1 ≠ CallOutcome.noneTypeCrash := by
  rcases op with a | e <;> simp [runBody] <;> split_ifs <;> simp

/-- C10: every reachable OPEN breaker carries a recorded failure instant, so
the elapsed-time computation of `call` never meets a missing timestamp: the
`noneTypeCrash` outcome (Python `time.time() - None`) is unreachable. -/
theorem c10_open_timestamp_crash_unreachable (b : CircuitBreaker) (now : Int)
    (op : OpResult Unit) (hr : Reachable b) :
    (b.state = CircuitState.opened → b.last_failure_time ≠ none)
    ∧ (CircuitBreaker.call b now op).1 ≠ CallOutcome.noneTypeCrash := by
  have hinv := reachable_inv b hr
  constructor
  · intro ho
    exact (hinv (by simp [ho])).2
  · by_cases hst : b.state = CircuitState.opened
    · rcases hlf : b.last_failure_time with _ | t
      · exact absurd hlf ((hinv (by simp [hst])).2)
      · by_cases ht : b.timeout ≤ now - t
        · have : CircuitBreaker.call b now op
              = runBody { b with state := CircuitState.halfOpen } now op := by
            simp [CircuitBreaker.call, hst, hlf, ht]
          rw [this]
          exact runBody_no_crash _ now op
        · simp [CircuitBreaker.call, hst, hlf, ht]
    · have : CircuitBreaker.call b now op = runBody b now op := by
        simp [CircuitBreaker.call, hst]
      rw [this]
      exact runBody_no_crash b now op

/-- C10 witness: the reachable OPEN breaker `openedRun` has a timestamp, and
a call on it at time 3 does not hit the missing-timestamp crash. -/
theorem c10_witness :
    openedRun.last_failure_time ≠ none
    ∧ (CircuitBreaker.call openedRun 3 (OpResult.ok () : OpResult Unit)).1
        ≠ CallOutcome.noneTypeCrash :=
  ⟨(c10_open_timestamp_crash_unreachable openedRun 3 (OpResult.ok ())
      openedRun_reachable).1 (by decide),
   (c10_open_timestamp_crash_unreachable openedRun 3 (OpResult.ok ())
      openedRun_reachable).2⟩

theorem retryGo_all_rate_limited (d : Nat) (eF : Nat → PyExc)
    (hc : ∀ j, isInstanceOf (eF j).cls ExcClass.rateLimitError = true) :
    ∀ (fuel i m : Nat), i + fuel = m → 0 < fuel →
      retryGo m d (fun j => (OpResult.err (eF j) : OpResult Unit)) i fuel
        = ((List.range (fuel - 1)).map (fun k => d * 2 ^ (i + k)),
           RetryOutcome.raised (eF (m - 1))) := by
  intro fuel
  induction fuel with
  | zero => intro i m _ hpos; omega
  | succ f ihf =>
    intro i m hm _
    rcases f with _ | f1
    · have hi : i = m - 1 := by omega
      have hlt : ¬ i < m - 1 := by omega
      simp [retryGo, hc i, hlt, hi]
    · have hlt : i < m - 1 := by omega
      have hrec := ihf (i + 1) m (by omega) (by omega)
      have hstep : retryGo m d (fun j => (OpResult.err (eF j) : OpResult Unit))
          i (f1 + 1 + 1)
          = (d * 2 ^ i
              :: (retryGo m d (fun j => (OpResult.err (eF j) : OpResult Unit))
                    (i + 1) (f1 + 1)).1,
             (retryGo m d (fun j => (OpResult.err (eF j) : OpResult Unit))
                (i + 1) (f1 + 1)).2) := by
        conv_lhs => rw [retryGo]
        simp [hc i, hlt]
      rw [hstep, hrec]
      simp only [Nat.add_sub_cancel, Prod.mk.injEq, and_true]
      rw [List.range_succ_eq_map, List.map_cons, List.map_map]
      refine List.cons_eq_cons.mpr ⟨by simp, ?_⟩
      apply List.map_congr_left
      intro k _
      simp only [Function.comp]
      congr 1
      congr 1
      omega

/-- C6: when every attempt of the retried completion call fails with a
rate-limit exception, the loop with `max_retries = m ≥ 1` and
`retry_delay = d` sleeps `d * 2 ^ i` after each attempt `i < m - 1` — the
recorded delays are exactly `[d * 2 ^ 0, …, d * 2 ^ (m - 2)]` — and the
failure of the last attempt is re-raised unmodified; in particular `m = 3`,
`d = 2` yields delays 2 then 4 and propagates the third failure. -/
theorem c6_retry_backoff (m d : Nat) (eF : Nat → PyExc) (hm : 1 ≤ m)
    (hc : ∀ j, isInstanceOf (eF j).cls ExcClass.rateLimitError = true) :
    retryCompletion m d (fun j => (OpResult.err (eF j) : OpResult Unit))
      = ((List.range (m - 1)).map (fun i => d * 2 ^ i),
         RetryOutcome.raised (eF (m - 1))) := by
  have h := retryGo_all_rate_limited d eF hc m 0 m (by omega) (by omega)
  rw [retryCompletion, h]
  simp

/-- C6 witness: with `max_retries = 3`, `retry_delay = 2` and three straight
rate-limit failures, the sleeps are 2 then 4 time units and the third failure
is re-raised. -/
theorem c6_witness :
    retryCompletion 3 2 (fun _ => (OpResult.err rlExc : OpResult Unit))
      = ([2, 4], RetryOutcome.raised rlExc) := by
  have h := c6_retry_backoff 3 2 (fun _ => rlExc) (by decide) (fun _ => rfl)
  simpa using h

/-- C7: in any single `call` step the counter is zeroed only together with a
transition into CLOSED (the `_reset` path), and on every reachable breaker
OPEN implies the counter has reached the threshold — covering both the
threshold opening and the post-probe reopening, since the probe failure keeps
the counter at or above the threshold. -/
theorem c7_reset_only_into_closed (b b2 : CircuitBreaker) (now : Int)
    (op : OpResult Unit) (hr : Reachable b2) :
    (b.failure_count ≠ 0 → (CircuitBreaker.call b now op).2.failure_count = 0 →
      (CircuitBreaker.call b now op).2.state = CircuitState.closed)
    ∧ (b2.state = CircuitState.opened →
        b2.failure_threshold ≤ b2.failure_count) := by
  constructor
  · intro hc hz
    rcases b with ⟨ft, tmo, exp, nm, fc, lft, st⟩
    rcases op with a | e <;> rcases st <;> rcases lft with _ | t <;>
      simp_all [CircuitBreaker.call, runBody, handleFailure, resetBreaker] <;>
      split_ifs at hz ⊢ <;> simp_all
  · intro ho
    exact ((reachable_inv b2 hr) (by simp [ho])).1

/-- C7 witness: a successful probe on the reachable HALF_OPEN breaker
`halfOpenRun` zeroes the counter and does land in CLOSED, and the reachable
OPEN breaker `openedRun` has its counter at the threshold. -/
theorem c7_witness :
    (CircuitBreaker.call halfOpenRun 300 (OpResult.ok () : OpResult Unit)).2.state
        = CircuitState.closed
    ∧ openedRun.failure_threshold ≤ openedRun.failure_count :=
  ⟨(c7_reset_only_into_closed halfOpenRun openedRun 300 (OpResult.ok ())
      openedRun_reachable).1 (by decide) (by decide),
   (c7_reset_only_into_closed halfOpenRun openedRun 300 (OpResult.ok ())
      openedRun_reachable).2 (by decide)⟩

theorem invokeAll_foldl :
    ∀ (calls : List (Int × OpResult Unit)) (w : BoundOperation),
      (BoundOperation.invokeAll w calls).circuit_breaker
        = calls.foldl (fun b c => (CircuitBreaker.call b c.1 c.2).2)
            w.circuit_breaker := by
  intro calls
  induction calls with
  | nil => intro w; rfl
  | cons c cs ih =>
    intro w
    rw [BoundOperation.invokeAll, List.foldl_cons, List.foldl_cons]
    exact ih ⟨(CircuitBreaker.call w.circuit_breaker c.1 c.2).2⟩

/-- C9: the decorator creates exactly one breaker at binding time — named by
the explicit name when one is given, else by the operation identifier — every
invocation of the bound operation delegates to that same breaker (a run of
invocations folds `call` over the one shared breaker state), the binding
exposes the breaker for state queries, and a shared threshold-2 binding
really accumulates both failures: its exposed `get_state` reports the OPEN
circuit that per-call breaker creation could never reach. -/
theorem c9_binding_single_shared_breaker (ft : Nat) (tmo : Int)
    (exp : ExcClass) (nm funcName : String) (w : BoundOperation) (now : Int)
    (op : OpResult Unit) (calls : List (Int × OpResult Unit))
    (hnm : nm ≠ "") :
    (circuit_breaker ft tmo exp none funcName).circuit_breaker
        = CircuitBreaker.mkInit ft tmo exp funcName
    ∧ (circuit_breaker ft tmo exp (some nm) funcName).circuit_breaker
        = CircuitBreaker.mkInit ft tmo exp nm
    ∧ BoundOperation.invoke w now op
        = ((CircuitBreaker.call w.circuit_breaker now op).1,
           ⟨(CircuitBreaker.call w.circuit_breaker now op).2⟩)
    ∧ (BoundOperation.invokeAll w calls).circuit_breaker
        = calls.foldl (fun b c => (CircuitBreaker.call b c.1 c.2).2)
            w.circuit_breaker
    ∧ CircuitBreaker.get_state
        (BoundOperation.invokeAll
          (circuit_breaker 2 30 ExcClass.exceptionBase none "connect")
          [(0, OpResult.err plainExc), (1, OpResult.err plainExc)]).circuit_breaker
        = ⟨"connect", "open", 2, 2, some 1⟩ := by
  refine ⟨rfl, ?_, rfl, invokeAll_foldl calls w, by decide⟩
  simp [circuit_breaker, hnm]

/-- C9 witness: the binding of the snowflake connect operation carries one
breaker named by the explicit decorator argument. -/
theorem c9_witness :
    (circuit_breaker 3 30 ExcClass.exceptionBase (some "snowflake_connection")
        "connect").circuit_breaker
      = CircuitBreaker.mkInit 3 30 ExcClass.exceptionBase
          "snowflake_connection" :=
  (c9_binding_single_shared_breaker 3 30 ExcClass.exceptionBase
    "snowflake_connection" "connect"
    (circuit_breaker 3 30 ExcClass.exceptionBase none "connect") 0
    (OpResult.ok ()) [] (by decide)).2.1
